import Mathlib

/-!
Verification of the job-orchestration core of the streamyfin
optimized-versions server, as implemented in `src/app.service.ts`
(the `AppService` class with the FIFO `jobQueue` and configurable
`maxConcurrentJobs`).

The service is single-threaded JavaScript driven by an event loop, so we
embed it as a state type `AppState` together with one Lean function per
synchronous event-handler execution:

  * `downloadAndCombine` — the submission entry point (pushes a `queued`
    job, appends to the backlog, runs `checkQueue`);
  * `cancelJob` — the cancellation entry point;
  * `probeClose` — the `close` event of the `ffprobe` duration probe,
    together with the microtask continuation that it resumes inside
    `startFFmpegProcess` (on success: record the duration, spawn the
    combiner; on failure: the `catch` block marks the job failed).  In
    both cases the `finally { this.checkQueue() }` block runs at the end
    of this same continuation, because `return new Promise(...)` inside
    `try` triggers `finally` when the `return` executes, before the
    returned promise settles;
  * `combinerClose` — the `close` event of the `ffmpeg` combiner
    process.  Note that this handler performs no queue re-evaluation:
    the `finally` block of `startFFmpegProcess` has already run when the
    combiner was spawned;
  * `updateProgress` — the `stderr` `data` event of the combiner.

JavaScript `Map`s are embedded as association lists, the `activeJobs`
array as a `List Job`, and floating-point numbers as rationals (the
values involved — probed durations, parsed progress percentages and
speeds — stay far from the extremes where `number` and `ℚ` differ; the
`NaN` that `parseFloat` can produce on garbage probe output is outside
the model).  Child-process exit codes are `Option Int` (`none` is the
`null` code delivered when a process dies from a signal or fails to
launch).  The opaque `item : any` payload of a job carries no behavior
and is not modelled.  The ghost field `spawnedFfmpeg` records each call
to `spawn('ffmpeg', ...)` so that "the combiner was never started" is
expressible even after the process handle is deleted.
-/

/-- Status values of `Job.status` in `app.service.ts` (the spec calls
`optimizing` "running"). -/
inductive JobStatus where
  | queued
  | optimizing
  | completed
  | failed
  | cancelled
deriving DecidableEq, Repr

/-- The `Job` record pushed onto `activeJobs` (the opaque `item` payload
is omitted; `timestamp` is an abstract tick). -/
structure Job where
  id : String
  status : JobStatus
  progress : ℚ
  outputPath : String
  inputUrl : String
  deviceId : String
  itemId : String
  timestamp : Nat
  size : Nat
  speed : Option ℚ
deriving DecidableEq, Repr

/-- The mutable fields of the `AppService` instance.  `ffmpegProcesses`
keeps only the keys of the JS `Map` (presence of a live process handle);
`spawnedFfmpeg` is a ghost log of every combiner spawn. -/
structure AppState where
  activeJobs : List Job
  ffmpegProcesses : List String
  videoDurations : List (String × ℚ)
  jobQueue : List String
  maxConcurrentJobs : Nat
  cacheDir : String
  spawnedFfmpeg : List String
deriving DecidableEq, Repr

/-- Fresh service state, as left by the constructor. -/
def initialState (maxJobs : Nat) : AppState :=
  { activeJobs := []
    ffmpegProcesses := []
    videoDurations := []
    jobQueue := []
    maxConcurrentJobs := maxJobs
    cacheDir := "cache"
    spawnedFfmpeg := [] }

/-- Lookup in an association list, as `Map.get`. -/
def lookupKey (m : List (String × ℚ)) (k : String) : Option ℚ :=
  match m with
  | [] => none
  | (k', v) :: rest => if k' = k then some v else lookupKey rest k

/-- Insert-or-replace in an association list, as `Map.set`. -/
def setKey (m : List (String × ℚ)) (k : String) (v : ℚ) :
    List (String × ℚ) :=
  match m with
  | [] => [(k, v)]
  | (k', v') :: rest =>
      if k' = k then (k, v) :: rest else (k', v') :: setKey rest k v

/-- Removal from an association list, as `Map.delete`. -/
def eraseKey (m : List (String × ℚ)) (k : String) : List (String × ℚ) :=
  match m with
  | [] => []
  | (k', v') :: rest =>
      if k' = k then rest else (k', v') :: eraseKey rest k

/-- Key-set insertion, as `Map.set` restricted to key presence. -/
def insertProc (l : List String) (k : String) : List String :=
  if k ∈ l then l else l ++ [k]

/-- Key-set removal, as `Map.delete` restricted to key presence. -/
def eraseProc (l : List String) (k : String) : List String :=
  l.filter (fun k' => ¬ k' = k)

/-- Mutation of the first array entry with the given id, which is how
`this.activeJobs.find(...)` followed by field assignments acts on the
`activeJobs` array (a no-op when no entry matches, after the `if (job)`
guards). -/
def updateFirstJob (jobId : String) (f : Job → Job) :
    List Job → List Job
  | [] => []
  | j :: rest =>
      if j.id = jobId then f j :: rest
      else j :: updateFirstJob jobId f rest

/-- The lookup `this.activeJobs.find((job) => job.id === jobId)`. -/
def getJobStatusL (l : List Job) (jobId : String) : Option Job :=
  l.find? (fun j => j.id = jobId)

/-- The `getJobStatus` method of the service. -/
def getJobStatus (s : AppState) (jobId : String) : Option Job :=
  getJobStatusL s.activeJobs jobId

/-- The count computed at the top of `checkQueue`:
`activeJobs.filter((job) => job.status === 'optimizing').length`. -/
def countOptimizing (l : List Job) : Nat :=
  (l.filter (fun j => j.status = JobStatus.optimizing)).length

/-- Synchronous effect of `startJob`: the found job's status is set to
`optimizing`; the `startFFmpegProcess` call it then makes runs only up
to its first `await` (spawning the probe), touching no registry state. -/
def startJobSync (jobId : String) (jobs : List Job) : List Job :=
  updateFirstJob jobId (fun j => { j with status := JobStatus.optimizing }) jobs

/-- The `while` loop of `checkQueue`.  `running` is the count captured
before the loop; the source never recomputes or increments it inside the
loop body, so it stays fixed across iterations. -/
def checkQueueGo (running maxJobs : Nat) :
    List String → List Job → List Job × List String
  | [], jobs => (jobs, [])
  | nextJobId :: rest, jobs =>
      if running < maxJobs then
        checkQueueGo running maxJobs rest (startJobSync nextJobId jobs)
      else (jobs, nextJobId :: rest)

/-- Method `checkQueue`: count the `optimizing` jobs once, then drain the
backlog while that captured count is below `maxConcurrentJobs`. -/
def checkQueue (s : AppState) : AppState :=
  let running := countOptimizing s.activeJobs
  let p := checkQueueGo running s.maxConcurrentJobs s.jobQueue s.activeJobs
  { s with activeJobs := p.1, jobQueue := p.2 }

/-- Method `downloadAndCombine`: create the `queued` job, append its id to the
backlog, and re-evaluate the queue; returns the job id.  The fresh
`uuidv4()` and `new Date()` are passed in as `jobId` and `now`. -/
def downloadAndCombine (s : AppState) (jobId url deviceId itemId : String)
    (now : Nat) : AppState × String :=
  let job : Job :=
    { id := jobId
      status := JobStatus.queued
      progress := 0
      outputPath := s.cacheDir ++ "/combined_" ++ jobId ++ ".mp4"
      inputUrl := url
      deviceId := deviceId
      itemId := itemId
      timestamp := now
      size := 0
      speed := none }
  let s1 := { s with
    activeJobs := s.activeJobs ++ [job]
    jobQueue := s.jobQueue ++ [jobId] }
  (checkQueue s1, jobId)

/-- Method `cancelJob`: kill and drop the process handle when one exists, drop
the job from both the backlog and the registry when the entry exists,
re-evaluate the queue, and return `true` unconditionally. -/
def cancelJob (s : AppState) (jobId : String) : AppState × Bool :=
  let s1 :=
    if jobId ∈ s.ffmpegProcesses then
      { s with ffmpegProcesses := eraseProc s.ffmpegProcesses jobId }
    else s
  let s2 :=
    if (getJobStatusL s1.activeJobs jobId).isSome then
      { s1 with
        jobQueue := s1.jobQueue.filter (fun id => ¬ id = jobId)
        activeJobs := s1.activeJobs.filter (fun j => ¬ j.id = jobId) }
    else s1
  (checkQueue s2, true)

/-- The `close` event of the duration probe, plus the continuation it
resumes inside `startFFmpegProcess`.  A `some 0` code records the parsed
duration and spawns the combiner (registering its handle); any other
code (`none` models the `null` code of a killed or launch-failed probe)
rejects, and the `catch` block marks the job `failed`.  Either way the
`finally` block then runs `checkQueue`: on the success path this happens
the moment the combiner is spawned, because the `return new Promise`
statement triggers `finally` before that promise settles. -/
def probeClose (s : AppState) (jobId : String) (code : Option Int)
    (durationOutput : ℚ) : AppState :=
  if code = some 0 then
    let s1 := { s with
      videoDurations := setKey s.videoDurations jobId durationOutput }
    let s2 := { s1 with
      ffmpegProcesses := insertProc s1.ffmpegProcesses jobId
      spawnedFfmpeg := s1.spawnedFfmpeg ++ [jobId] }
    checkQueue s2
  else
    let s1 := { s with
      activeJobs :=
        updateFirstJob jobId (fun j => { j with status := JobStatus.failed })
          s.activeJobs }
    checkQueue s1

/-- The `close` event of the combiner: the process handle and the cached
duration are dropped first; then, when the registry entry still exists,
a `some 0` code marks it `completed` with `progress` 100 and stores the
stat'd size when the stat succeeded (`statResult`), while any other code
marks it `failed` with `progress` 0.  No queue re-evaluation happens
here (the `finally { checkQueue() }` already ran at spawn time). -/
def combinerClose (s : AppState) (jobId : String) (code : Option Int)
    (statResult : Option Nat) : AppState :=
  let s1 := { s with
    ffmpegProcesses := eraseProc s.ffmpegProcesses jobId
    videoDurations := eraseKey s.videoDurations jobId }
  match getJobStatusL s1.activeJobs jobId with
  | none => s1
  | some _ =>
      if code = some 0 then
        { s1 with
          activeJobs :=
            updateFirstJob jobId
              (fun j =>
                { j with
                  status := JobStatus.completed
                  progress := 100
                  size := match statResult with
                          | some n => n
                          | none => j.size })
              s1.activeJobs }
      else
        { s1 with
          activeJobs :=
            updateFirstJob jobId
              (fun j => { j with status := JobStatus.failed, progress := 0 })
              s1.activeJobs }

/-- Numeric value of an ASCII digit. -/
def digitVal (c : Char) : Nat := c.toNat - 48

/-- Attempt to match the fixed-width regular expression
`time=(\d{2}):(\d{2}):(\d{2})\.\d{2}` at the head of the character list,
returning the captured (hours, minutes, seconds) as `parseInt` reads
them.  The pattern has no variable-width parts, so a JS regex engine
either matches it exactly here or moves on to the next start position. -/
def matchTimeAt : List Char → Option (Nat × Nat × Nat)
  | 't' :: 'i' :: 'm' :: 'e' :: '=' ::
      h1 :: h2 :: ':' :: m1 :: m2 :: ':' :: s1 :: s2 :: '.' ::
      f1 :: f2 :: _ =>
      if h1.isDigit ∧ h2.isDigit ∧ m1.isDigit ∧ m2.isDigit ∧
          s1.isDigit ∧ s2.isDigit ∧ f1.isDigit ∧ f2.isDigit then
        some (10 * digitVal h1 + digitVal h2,
              10 * digitVal m1 + digitVal m2,
              10 * digitVal s1 + digitVal s2)
      else none
  | _ => none

/-- Leftmost match of the `time=` pattern, as
`ffmpegOutput.match(/time=(\d{2}):(\d{2}):(\d{2})\.\d{2}/)`. -/
def findTimeMatch : List Char → Option (Nat × Nat × Nat)
  | [] => none
  | c :: rest =>
      match matchTimeAt (c :: rest) with
      | some r => some r
      | none => findTimeMatch rest

/-- Greedy run of ASCII digits and the remainder of the list. -/
def takeDigits : List Char → List Char × List Char
  | [] => ([], [])
  | c :: rest =>
      if c.isDigit then
        let p := takeDigits rest
        (c :: p.1, p.2)
      else ([], c :: rest)

/-- Natural number denoted by a digit string (most significant first). -/
def natOfDigits (l : List Char) : Nat :=
  l.foldl (fun acc c => 10 * acc + digitVal c) 0

/-- The rational `parseFloat` produces from an integer digit string and
a (possibly empty) fractional digit string. -/
def ratOfParts (intPart fracPart : List Char) : ℚ :=
  (natOfDigits intPart : ℚ) + (natOfDigits fracPart : ℚ) / 10 ^ fracPart.length

/-- Attempt to match `speed=(\d+\.?\d*)x` at the head of the character
list, returning the captured float.  Greedy digit runs need no
backtracking here: when the mandatory trailing `x` is missing, no
shorter split of the digits can supply it either. -/
def matchSpeedAt : List Char → Option ℚ
  | 's' :: 'p' :: 'e' :: 'e' :: 'd' :: '=' :: rest =>
      let p1 := takeDigits rest
      if p1.1 = [] then none
      else
        match p1.2 with
        | '.' :: r2 =>
            let p2 := takeDigits r2
            (match p2.2 with
             | 'x' :: _ => some (ratOfParts p1.1 p2.1)
             | _ => none)
        | 'x' :: _ => some (ratOfParts p1.1 [])
        | _ => none
  | _ => none

/-- The `Math.min` of two rationals, written out directly so that
proofs by kernel evaluation reduce. -/
def ratMin (a b : ℚ) : ℚ := if a ≤ b then a else b

/-- The `Math.max` of two rationals, written out directly so that
proofs by kernel evaluation reduce. -/
def ratMax (a b : ℚ) : ℚ := if a ≤ b then b else a

/-- Leftmost match of the `speed=` pattern, as
`ffmpegOutput.match(/speed=(\d+\.?\d*)x/)`. -/
def findSpeedMatch : List Char → Option ℚ
  | [] => none
  | c :: rest =>
      match matchSpeedAt (c :: rest) with
      | some r => some r
      | none => findSpeedMatch rest

/-- Method `updateProgress`: on a line whose `time=` field parses and whose job
has a truthy cached duration (`if (totalDuration)` — a duration of 0 is
falsy and produces no update), set the found job's progress to
`Math.max(Math.min(currentTime / totalDuration * 100, 99.9), 0)` and,
when the same line also carries a `speed=` match, its speed to
`Math.max(speed, 0)`.  In every other case the state is untouched. -/
def updateProgress (s : AppState) (jobId : String) (ffmpegOutput : String) :
    AppState :=
  match findTimeMatch ffmpegOutput.data with
  | none => s
  | some (h, m, sec) =>
      let currentTime : ℚ := ((h * 3600 + m * 60 + sec : Nat) : ℚ)
      match lookupKey s.videoDurations jobId with
      | none => s
      | some totalDuration =>
          if totalDuration = 0 then s
          else
            let progress :=
              ratMin (currentTime / totalDuration * 100) (999 / 10)
            { s with
              activeJobs :=
                updateFirstJob jobId
                  (fun j =>
                    let j1 := { j with progress := ratMax progress 0 }
                    match findSpeedMatch ffmpegOutput.data with
                    | some sp => { j1 with speed := some (ratMax sp 0) }
                    | none => j1)
                  s.activeJobs }

/-- Status of the registry entry for a job id, when present. -/
def statusOf (s : AppState) (jobId : String) : Option JobStatus :=
  (getJobStatus s jobId).map (fun j => j.status)

/-- Progress of the registry entry for a job id, when present. -/
def progressOf (s : AppState) (jobId : String) : Option ℚ :=
  (getJobStatus s jobId).map (fun j => j.progress)

/-- Speed field of the registry entry for a job id, when present. -/
def speedOf (s : AppState) (jobId : String) : Option (Option ℚ) :=
  (getJobStatus s jobId).map (fun j => j.speed)

/-- The value `updateProgress` stores into `job.progress` for an elapsed
time of `t` seconds and a total duration `d`:
`Math.max(Math.min(t / d * 100, 99.9), 0)`. -/
def clampProgress (t : Nat) (d : ℚ) : ℚ :=
  ratMax (ratMin ((t : ℚ) / d * 100) (999 / 10)) 0

/-- The effect of one `updateProgress` call on the found job when the
line carried a time but no speed. -/
def postTime (t : Nat) (d : ℚ) (x : Job) : Job :=
  { x with progress := clampProgress t d }

/-- The effect of one `updateProgress` call on the found job when the
line carried both a time and a speed. -/
def postTimeSpeed (t : Nat) (d : ℚ) (sp : ℚ) (x : Job) : Job :=
  { x with progress := clampProgress t d, speed := some (ratMax sp 0) }

/-- The mutation the `catch` block of `startFFmpegProcess` applies to
the found job after a probe failure. -/
def markFailed (x : Job) : Job :=
  { x with status := JobStatus.failed }

/-- The mutation the combiner `close` handler applies on exit code 0. -/
def markCompleted (statResult : Option Nat) (x : Job) : Job :=
  { x with
    status := JobStatus.completed
    progress := 100
    size := match statResult with
            | some n => n
            | none => x.size }

/-- The mutation the combiner `close` handler applies on non-zero
exit. -/
def markFailedClose (x : Job) : Job :=
  { x with status := JobStatus.failed, progress := 0 }

/-! ### Concrete states used as counterexamples and witnesses -/

/-- Ceiling 1; three submissions; then the first (running) job is
cancelled while two jobs sit in the backlog.  The stale `runningJobs`
snapshot inside `checkQueue` lets the loop start both backlog jobs. -/
def ceilingViolationState : AppState :=
  let s1 := (downloadAndCombine (initialState 1) "j1" "u1" "d" "i" 0).1
  let s2 := (downloadAndCombine s1 "j2" "u2" "d" "i" 0).1
  let s3 := (downloadAndCombine s2 "j3" "u3" "d" "i" 0).1
  (cancelJob s3 "j1").1

/-- Ceiling 1; job j1 is probed and its combiner spawned; j2 is
submitted while the slot is taken; then j1's combiner exits 0. -/
def terminationState : AppState :=
  let s1 := (downloadAndCombine (initialState 1) "j1" "u1" "d" "i" 0).1
  let s2 := probeClose s1 "j1" (some 0) 60
  let s3 := (downloadAndCombine s2 "j2" "u2" "d" "i" 0).1
  combinerClose s3 "j1" (some 0) (some 1000)

/-- A state whose single job c1 ran to successful completion. -/
def completedJobState : AppState :=
  let s1 := (downloadAndCombine (initialState 1) "c1" "u" "d" "i" 0).1
  let s2 := probeClose s1 "c1" (some 0) 60
  combinerClose s2 "c1" (some 0) (some 5)

/-- A state whose single job r1 has been admitted and is running. -/
def runningJobState : AppState :=
  (downloadAndCombine (initialState 1) "r1" "u" "d" "i" 0).1

/-- The registry entry of r1 in `runningJobState`. -/
def runningJob : Job :=
  { id := "r1"
    status := JobStatus.optimizing
    progress := 0
    outputPath := "cache/combined_r1.mp4"
    inputUrl := "u"
    deviceId := "d"
    itemId := "i"
    timestamp := 0
    size := 0
    speed := none }

/-- A state whose single job w1 is running with a probed duration of
60 seconds cached, i.e. its combiner has just been spawned. -/
def combineReadyState : AppState :=
  let s1 := (downloadAndCombine (initialState 1) "w1" "u" "d" "i" 0).1
  probeClose s1 "w1" (some 0) 60

/-- The registry entry of w1 in `combineReadyState`. -/
def combineReadyJob : Job :=
  { id := "w1"
    status := JobStatus.optimizing
    progress := 0
    outputPath := "cache/combined_w1.mp4"
    inputUrl := "u"
    deviceId := "d"
    itemId := "i"
    timestamp := 0
    size := 0
    speed := none }

/-- A combiner diagnostic line carrying both a time and a speed. -/
def sampleLine : String := "frame=100 time=00:00:30.00 speed=2.5x"

/-- The state of `combineReadyState` after w1 reports 30 elapsed
seconds, then a line reporting only 10 elapsed seconds. -/
def regressState1 : AppState :=
  updateProgress combineReadyState "w1" sampleLine

/-- One further progress line with a smaller elapsed time. -/
def regressState2 : AppState :=
  updateProgress regressState1 "w1" "frame=101 time=00:00:10.00 speed=2.5x"

/-! ### Basic lemmas about the registry operations -/

lemma getJobStatusL_cons (j : Job) (rest : List Job) (jobId : String) :
    getJobStatusL (j :: rest) jobId =
      if j.id = jobId then some j else getJobStatusL rest jobId := by
  by_cases h : j.id = jobId <;> simp [getJobStatusL, List.find?_cons, h]

lemma getJobStatusL_updateFirstJob_eq (jobId : String) (f : Job → Job)
    (hf : ∀ j, (f j).id = j.id) (l : List Job) :
    getJobStatusL (updateFirstJob jobId f l) jobId =
      (getJobStatusL l jobId).map f := by
  induction l with
  | nil => rfl
  | cons j rest ih =>
      by_cases h : j.id = jobId
      · simp [updateFirstJob, h, getJobStatusL_cons, hf]
      · simp [updateFirstJob, h, getJobStatusL_cons, ih]

lemma getJobStatusL_updateFirstJob_ne (k jobId : String) (f : Job → Job)
    (hf : ∀ j, (f j).id = j.id) (hne : ¬ k = jobId) (l : List Job) :
    getJobStatusL (updateFirstJob k f l) jobId = getJobStatusL l jobId := by
  induction l with
  | nil => rfl
  | cons j rest ih =>
      by_cases h : j.id = k
      · have hj' : ¬ j.id = jobId := by rw [h]; exact hne
        simp [updateFirstJob, h, getJobStatusL_cons, hf, hne, hj']
      · simp [updateFirstJob, h, getJobStatusL_cons, ih]

lemma getJobStatusL_updateFirstJob_none (k jobId : String) (f : Job → Job)
    (hf : ∀ j, (f j).id = j.id) (l : List Job)
    (h : getJobStatusL l jobId = none) :
    getJobStatusL (updateFirstJob k f l) jobId = none := by
  by_cases hk : k = jobId
  · subst hk; rw [getJobStatusL_updateFirstJob_eq k f hf l, h]; rfl
  · rw [getJobStatusL_updateFirstJob_ne k jobId f hf hk l]; exact h

lemma getJobStatusL_filter_ne (l : List Job) (jobId : String) :
    getJobStatusL (l.filter (fun j => ¬ j.id = jobId)) jobId = none := by
  induction l with
  | nil => rfl
  | cons j rest ih =>
      by_cases h : j.id = jobId
      · rw [List.filter_cons_of_neg (by simp [h])]; exact ih
      · rw [List.filter_cons_of_pos (by simp [h]), getJobStatusL_cons,
          if_neg h]
        exact ih

/-! ### Lemmas about `checkQueue` -/

lemma checkQueueGo_fst_find_not_mem (running maxJobs : Nat)
    (queue : List String) (jobs : List Job) (jobId : String)
    (h : jobId ∉ queue) :
    getJobStatusL (checkQueueGo running maxJobs queue jobs).1 jobId =
      getJobStatusL jobs jobId := by
  induction queue generalizing jobs with
  | nil => rfl
  | cons next rest ih =>
      simp only [checkQueueGo]
      by_cases hr : running < maxJobs
      · rw [if_pos hr]
        have hne : ¬ next = jobId := by
          intro he; exact h (he ▸ List.mem_cons_self next rest)
        rw [ih _ (fun hm => h (List.mem_cons_of_mem _ hm))]
        exact getJobStatusL_updateFirstJob_ne next jobId
          (fun j => { j with status := JobStatus.optimizing })
          (fun j => rfl) hne jobs
      · rw [if_neg hr]

lemma checkQueueGo_fst_find_none (running maxJobs : Nat)
    (queue : List String) (jobs : List Job) (jobId : String)
    (h : getJobStatusL jobs jobId = none) :
    getJobStatusL (checkQueueGo running maxJobs queue jobs).1 jobId = none := by
  induction queue generalizing jobs with
  | nil => exact h
  | cons next rest ih =>
      simp only [checkQueueGo]
      by_cases hr : running < maxJobs
      · rw [if_pos hr]
        exact ih _ (getJobStatusL_updateFirstJob_none next jobId
          (fun j => { j with status := JobStatus.optimizing })
          (fun j => rfl) jobs h)
      · rw [if_neg hr]; exact h

lemma checkQueue_getJobStatus_of_not_mem (s : AppState) (jobId : String)
    (h : jobId ∉ s.jobQueue) :
    getJobStatus (checkQueue s) jobId = getJobStatus s jobId :=
  checkQueueGo_fst_find_not_mem _ _ _ _ _ h

lemma checkQueue_getJobStatus_none (s : AppState) (jobId : String)
    (h : getJobStatus s jobId = none) :
    getJobStatus (checkQueue s) jobId = none :=
  checkQueueGo_fst_find_none _ _ _ _ _ h

/-! ### `cancelJob` always forgets the job id -/

lemma getJobStatus_cancelStep (s1 : AppState) (jobId : String) :
    getJobStatus
      (if (getJobStatusL s1.activeJobs jobId).isSome then
        { s1 with
          jobQueue := s1.jobQueue.filter (fun id => ¬ id = jobId)
          activeJobs := s1.activeJobs.filter (fun j => ¬ j.id = jobId) }
       else s1) jobId = none := by
  cases ho : getJobStatusL s1.activeJobs jobId with
  | none => rw [if_neg (by simp [ho])]; exact ho
  | some j =>
      rw [if_pos (by simp [ho])]
      exact getJobStatusL_filter_ne s1.activeJobs jobId

lemma cancelJob_getJobStatus_none (s : AppState) (jobId : String) :
    getJobStatus (cancelJob s jobId).1 jobId = none := by
  apply checkQueue_getJobStatus_none
  exact getJobStatus_cancelStep
    (if jobId ∈ s.ffmpegProcesses then
      { s with ffmpegProcesses := eraseProc s.ffmpegProcesses jobId }
     else s) jobId

/-! ### Lemmas about `updateProgress` -/

lemma ratMin_eq_min (a b : ℚ) : ratMin a b = min a b := by
  unfold ratMin
  by_cases h : a ≤ b
  · rw [if_pos h, min_eq_left h]
  · rw [if_neg h, min_eq_right (le_of_not_le h)]

lemma ratMax_eq_max (a b : ℚ) : ratMax a b = max a b := by
  unfold ratMax
  by_cases h : a ≤ b
  · rw [if_pos h, max_eq_right h]
  · rw [if_neg h, max_eq_left (le_of_not_le h)]

lemma updateProgress_no_time (s : AppState) (jobId line : String)
    (h : findTimeMatch line.data = none) :
    updateProgress s jobId line = s := by
  unfold updateProgress; rw [h]

lemma updateProgress_no_duration (s : AppState) (jobId line : String)
    (h : lookupKey s.videoDurations jobId = none) :
    updateProgress s jobId line = s := by
  unfold updateProgress
  cases ht : findTimeMatch line.data with
  | none => rfl
  | some t => obtain ⟨a, b, c⟩ := t; rw [h]

lemma updateProgress_zero_duration (s : AppState) (jobId line : String)
    (h : lookupKey s.videoDurations jobId = some 0) :
    updateProgress s jobId line = s := by
  unfold updateProgress
  cases ht : findTimeMatch line.data with
  | none => rfl
  | some t => obtain ⟨a, b, c⟩ := t; rw [h]; simp

lemma updateProgress_videoDurations (s : AppState) (jobId line : String) :
    (updateProgress s jobId line).videoDurations = s.videoDurations := by
  unfold updateProgress
  cases ht : findTimeMatch line.data with
  | none => rfl
  | some t =>
      obtain ⟨a, b, c⟩ := t
      cases hd : lookupKey s.videoDurations jobId with
      | none => rfl
      | some d => by_cases h0 : d = 0 <;> simp [h0]

lemma updateProgress_found (s : AppState) (jobId line : String)
    (th tm ts : Nat) (d : ℚ) (j : Job)
    (ht : findTimeMatch line.data = some (th, tm, ts))
    (hd : lookupKey s.videoDurations jobId = some d)
    (hd0 : ¬ d = 0)
    (hj : getJobStatus s jobId = some j) :
    ∃ j', getJobStatus (updateProgress s jobId line) jobId = some j' ∧
      j'.progress = clampProgress (th * 3600 + tm * 60 + ts) d ∧
      j'.status = j.status ∧
      j'.speed = (match findSpeedMatch line.data with
                  | some sp => some (ratMax sp 0)
                  | none => j.speed) := by
  unfold updateProgress
  rw [ht, hd]
  dsimp only
  rw [if_neg hd0]
  cases hsp : findSpeedMatch line.data with
  | none =>
      refine ⟨postTime (th * 3600 + tm * 60 + ts) d j, ?_, rfl, rfl, rfl⟩
      show getJobStatusL (updateFirstJob jobId
        (postTime (th * 3600 + tm * 60 + ts) d) s.activeJobs) jobId = _
      rw [getJobStatusL_updateFirstJob_eq jobId
        (postTime (th * 3600 + tm * 60 + ts) d) (fun x => rfl) s.activeJobs]
      rw [show getJobStatusL s.activeJobs jobId = some j from hj]
      rfl
  | some sp =>
      refine ⟨postTimeSpeed (th * 3600 + tm * 60 + ts) d sp j, ?_, rfl, rfl,
        rfl⟩
      show getJobStatusL (updateFirstJob jobId
        (postTimeSpeed (th * 3600 + tm * 60 + ts) d sp) s.activeJobs)
        jobId = _
      rw [getJobStatusL_updateFirstJob_eq jobId
        (postTimeSpeed (th * 3600 + tm * 60 + ts) d sp) (fun x => rfl)
        s.activeJobs]
      rw [show getJobStatusL s.activeJobs jobId = some j from hj]
      rfl

lemma updateProgress_speed_unchanged_of_no_speed (s : AppState)
    (jobId line : String) (h : findSpeedMatch line.data = none) :
    speedOf (updateProgress s jobId line) jobId = speedOf s jobId := by
  unfold updateProgress
  cases ht : findTimeMatch line.data with
  | none => rfl
  | some t =>
      obtain ⟨a, b, c⟩ := t
      cases hd : lookupKey s.videoDurations jobId with
      | none => rfl
      | some d =>
          by_cases h0 : d = 0
          · simp [h0]
          · dsimp only
            rw [if_neg h0]
            simp only [h]
            unfold speedOf getJobStatus
            show (getJobStatusL (updateFirstJob jobId
              (postTime (a * 3600 + b * 60 + c) d) s.activeJobs) jobId).map
              (fun x => x.speed) = _
            rw [getJobStatusL_updateFirstJob_eq jobId
              (postTime (a * 3600 + b * 60 + c) d) (fun x => rfl)
              s.activeJobs]
            cases hj : getJobStatusL s.activeJobs jobId with
            | none => rfl
            | some j => rfl

/-! ### Claim theorems -/

/-- Claim C1, code-bug evidence: with `MAX_CONCURRENT_JOBS = 1`, after
three submissions and one cancellation, the registry holds two jobs in
`optimizing` (running) status.  `checkQueue` captures `runningJobs` once
and never refreshes it inside its `while` loop, so one re-evaluation
admits the entire backlog instead of stopping at the free-slot count. -/
theorem ceiling_exceeded_after_cancellation :
    ceilingViolationState.maxConcurrentJobs = 1 ∧
    countOptimizing ceilingViolationState.activeJobs = 2 := by
  refine ⟨rfl, ?_⟩
  rfl

/-- Claim C2, code-bug evidence: job j1's combiner terminates with exit
code 0 while the backlog holds j2, yet no queued job is admitted: j2
stays `queued`, the backlog stays non-empty, and zero jobs are running.
The `finally { this.checkQueue() }` of `startFFmpegProcess` fires when
the inner promise is returned — i.e. when the combiner is spawned — so
the termination itself triggers no re-evaluation at all. -/
theorem combiner_termination_admits_no_job :
    statusOf terminationState "j1" = some JobStatus.completed ∧
    statusOf terminationState "j2" = some JobStatus.queued ∧
    terminationState.jobQueue = ["j2"] ∧
    countOptimizing terminationState.activeJobs = 0 := by
  refine ⟨rfl, rfl, rfl, rfl⟩

/-- Claim C3 counterexample: cancelling the already-completed job c1
returns `true` — the claim requires `false` — and removes the job's
registry entry rather than leaving it unchanged. -/
theorem cancel_completed_returns_true_and_removes :
    statusOf completedJobState "c1" = some JobStatus.completed ∧
    (cancelJob completedJobState "c1").2 = true ∧
    getJobStatus (cancelJob completedJobState "c1").1 "c1" = none := by
  refine ⟨rfl, rfl, rfl⟩

/-- Claim C3 amended: `cancelJob` returns `true` unconditionally — for
unknown ids, terminal jobs and active jobs alike — and after the call
the registry holds no entry for the id at all: a completed job's stored
entry is deleted, not preserved. -/
theorem cancelJob_always_true_and_forgets (s : AppState) (jobId : String) :
    (cancelJob s jobId).2 = true ∧
    getJobStatus (cancelJob s jobId).1 jobId = none :=
  ⟨rfl, cancelJob_getJobStatus_none s jobId⟩

/-- Claim C4 counterexample: r1 is running (`optimizing`); after
`cancelJob` returns, a status query observes no entry at all — not
status `cancelled`. -/
theorem cancel_running_not_observed_cancelled :
    statusOf runningJobState "r1" = some JobStatus.optimizing ∧
    getJobStatus (cancelJob runningJobState "r1").1 "r1" = none ∧
    ¬ statusOf (cancelJob runningJobState "r1").1 "r1" =
        some JobStatus.cancelled := by
  refine ⟨rfl, rfl, by decide⟩

/-- Claim C4 amended: for a job in `queued` or `optimizing` status,
`cancelJob` removes the registry entry before returning, so a status
query after the call observes not-found, never the `cancelled` status
the claim promises. -/
theorem cancel_active_removes_before_return (s : AppState)
    (jobId : String) (j : Job)
    (_hj : getJobStatus s jobId = some j)
    (_hst : j.status = JobStatus.queued ∨ j.status = JobStatus.optimizing) :
    getJobStatus (cancelJob s jobId).1 jobId = none ∧
    ¬ statusOf (cancelJob s jobId).1 jobId = some JobStatus.cancelled := by
  have h := cancelJob_getJobStatus_none s jobId
  refine ⟨h, ?_⟩
  unfold statusOf
  rw [h]
  intro hcon
  exact Option.noConfusion hcon

/-- Witness for the amended C4 theorem at the running job r1. -/
theorem cancel_active_removes_before_return_witness :
    getJobStatus (cancelJob runningJobState "r1").1 "r1" = none ∧
    ¬ statusOf (cancelJob runningJobState "r1").1 "r1" =
        some JobStatus.cancelled :=
  cancel_active_removes_before_return runningJobState "r1" runningJob
    (by decide) (Or.inr (by decide))

/-- Claim C5, confirmed: a probe terminating with any code other than 0
(including the null code of a launch failure) marks the job `failed`,
spawns no combiner (the ghost spawn log is untouched — the spawn in
`probeClose` sits exclusively in the `code = some 0` branch), and leaves
the process-handle table untouched.  The hypothesis `jobId ∉ s.jobQueue`
holds for every job whose probe ran, since `startJob` is reached only by
shifting the id off the queue. -/
theorem probe_failure_fails_job_without_combiner (s : AppState)
    (jobId : String) (code : Option Int) (d : ℚ) (j : Job)
    (hcode : ¬ code = some 0) (hq : jobId ∉ s.jobQueue)
    (hj : getJobStatus s jobId = some j) :
    statusOf (probeClose s jobId code d) jobId = some JobStatus.failed ∧
    (probeClose s jobId code d).spawnedFfmpeg = s.spawnedFfmpeg ∧
    (probeClose s jobId code d).ffmpegProcesses = s.ffmpegProcesses := by
  unfold probeClose
  rw [if_neg hcode]
  dsimp only
  refine ⟨?_, rfl, rfl⟩
  unfold statusOf
  rw [checkQueue_getJobStatus_of_not_mem]
  · show (getJobStatusL (updateFirstJob jobId markFailed s.activeJobs)
      jobId).map (fun x => x.status) = some JobStatus.failed
    rw [getJobStatusL_updateFirstJob_eq jobId markFailed (fun x => rfl)
      s.activeJobs]
    rw [show getJobStatusL s.activeJobs jobId = some j from hj]
    rfl
  · exact hq

/-- Witness for C5 at a concrete probe failure with exit code 1. -/
theorem probe_failure_witness :
    ¬ (some 1 : Option Int) = some 0 ∧
    "r1" ∉ runningJobState.jobQueue ∧
    (statusOf (probeClose runningJobState "r1" (some 1) 0) "r1" =
        some JobStatus.failed ∧
      (probeClose runningJobState "r1" (some 1) 0).spawnedFfmpeg =
        runningJobState.spawnedFfmpeg ∧
      (probeClose runningJobState "r1" (some 1) 0).ffmpegProcesses =
        runningJobState.ffmpegProcesses) :=
  ⟨by decide, by decide,
    probe_failure_fails_job_without_combiner runningJobState "r1" (some 1) 0
      runningJob (by decide) (by decide) (by decide)⟩

/-- Claim C6, confirmed: when the combiner closes and the registry entry
still exists, exit code 0 yields `completed` with progress 100 for every
stat outcome — including a failed stat (`statResult = none`), which is
logged but never demotes the job — while any other code (a non-zero
exit, or the null code of a kill) yields `failed` with progress 0. -/
theorem combiner_close_terminal_outcome (s : AppState) (jobId : String)
    (code : Option Int) (statResult : Option Nat) (j : Job)
    (hj : getJobStatus s jobId = some j) :
    (code = some 0 →
      statusOf (combinerClose s jobId code statResult) jobId =
        some JobStatus.completed ∧
      progressOf (combinerClose s jobId code statResult) jobId =
        some 100) ∧
    (¬ code = some 0 →
      statusOf (combinerClose s jobId code statResult) jobId =
        some JobStatus.failed ∧
      progressOf (combinerClose s jobId code statResult) jobId =
        some 0) := by
  unfold combinerClose
  dsimp only
  rw [show getJobStatusL s.activeJobs jobId = some j from hj]
  dsimp only
  have hc : getJobStatusL (updateFirstJob jobId (markCompleted statResult)
      s.activeJobs) jobId = some (markCompleted statResult j) := by
    rw [getJobStatusL_updateFirstJob_eq jobId (markCompleted statResult)
      (fun x => rfl) s.activeJobs]
    rw [show getJobStatusL s.activeJobs jobId = some j from hj]
    rfl
  have hfcl : getJobStatusL (updateFirstJob jobId markFailedClose
      s.activeJobs) jobId = some (markFailedClose j) := by
    rw [getJobStatusL_updateFirstJob_eq jobId markFailedClose
      (fun x => rfl) s.activeJobs]
    rw [show getJobStatusL s.activeJobs jobId = some j from hj]
    rfl
  constructor
  · intro h0
    rw [if_pos h0]
    constructor
    · show (getJobStatusL (updateFirstJob jobId (markCompleted statResult)
        s.activeJobs) jobId).map (fun x => x.status) =
        some JobStatus.completed
      rw [hc]; rfl
    · show (getJobStatusL (updateFirstJob jobId (markCompleted statResult)
        s.activeJobs) jobId).map (fun x => x.progress) = some 100
      rw [hc]; rfl
  · intro h0
    rw [if_neg h0]
    constructor
    · show (getJobStatusL (updateFirstJob jobId markFailedClose
        s.activeJobs) jobId).map (fun x => x.status) =
        some JobStatus.failed
      rw [hfcl]; rfl
    · show (getJobStatusL (updateFirstJob jobId markFailedClose
        s.activeJobs) jobId).map (fun x => x.progress) = some 0
      rw [hfcl]; rfl

/-- Witness for C6 at w1: success with a failed stat stays `completed`
at progress 100; exit code 3 gives `failed` at progress 0. -/
theorem combiner_close_terminal_outcome_witness :
    (statusOf (combinerClose combineReadyState "w1" (some 0) none) "w1" =
        some JobStatus.completed ∧
      progressOf (combinerClose combineReadyState "w1" (some 0) none)
        "w1" = some 100) ∧
    (statusOf (combinerClose combineReadyState "w1" (some 3) none) "w1" =
        some JobStatus.failed ∧
      progressOf (combinerClose combineReadyState "w1" (some 3) none)
        "w1" = some 0) :=
  ⟨(combiner_close_terminal_outcome combineReadyState "w1" (some 0) none
      combineReadyJob (by decide)).1 rfl,
   (combiner_close_terminal_outcome combineReadyState "w1" (some 3) none
      combineReadyJob (by decide)).2 (by decide)⟩

/-- Claim C7, confirmed: for a line whose `time=` field parses and a
known positive total duration, the stored progress is exactly
`min(currentTime / totalDuration * 100, 99.9)` — the 99.9 cap keeps
every mid-stream sample strictly below 100.  (The code's outer
`Math.max(·, 0)` is the identity here because the ratio is
non-negative.)  The concrete instance — the sample line with duration
60 giving progress 50 and speed 2.5 — is checked in the witness. -/
theorem progress_formula_capped (s : AppState) (jobId line : String)
    (th tm ts : Nat) (d : ℚ) (j : Job)
    (ht : findTimeMatch line.data = some (th, tm, ts))
    (hd : lookupKey s.videoDurations jobId = some d)
    (hdpos : 0 < d)
    (hj : getJobStatus s jobId = some j) :
    progressOf (updateProgress s jobId line) jobId =
      some (min (((th * 3600 + tm * 60 + ts : Nat) : ℚ) / d * 100)
        (999 / 10)) := by
  obtain ⟨j', hfind, hprog, -, -⟩ :=
    updateProgress_found s jobId line th tm ts d j ht hd
      (ne_of_gt hdpos) hj
  unfold progressOf
  rw [hfind]
  have h1 : (0:ℚ) ≤ ((th * 3600 + tm * 60 + ts : Nat) : ℚ) / d * 100 :=
    mul_nonneg (div_nonneg (Nat.cast_nonneg _) (le_of_lt hdpos))
      (by norm_num)
  have h2 : (0:ℚ) ≤ 999 / 10 := by norm_num
  have hclamp : clampProgress (th * 3600 + tm * 60 + ts) d =
      min (((th * 3600 + tm * 60 + ts : Nat) : ℚ) / d * 100) (999 / 10) := by
    unfold clampProgress
    rw [ratMin_eq_min, ratMax_eq_max]
    exact max_eq_left (le_min h1 h2)
  have hmap : Option.map (fun x : Job => x.progress) (some j') =
      some j'.progress := rfl
  rw [hmap, hprog, hclamp]

/-- Witness for C7: the sample line on a 60-second job gives progress
exactly 50 and speed 2.5. -/
theorem progress_formula_capped_witness :
    (0:ℚ) < 60 ∧
    progressOf (updateProgress combineReadyState "w1" sampleLine) "w1" =
      some 50 ∧
    speedOf (updateProgress combineReadyState "w1" sampleLine) "w1" =
      some (some (5 / 2)) := by
  refine ⟨by norm_num, ?_, ?_⟩
  · have h := progress_formula_capped combineReadyState "w1" sampleLine
      0 0 30 60 combineReadyJob (by decide) (by decide) (by norm_num)
      (by decide)
    rw [h]
    norm_num [min_def]
  · rw [show speedOf (updateProgress combineReadyState "w1" sampleLine)
        "w1" = some (some (ratMax (ratOfParts ['2'] ['5']) 0)) from rfl]
    have hval : ratOfParts ['2'] ['5'] = 5 / 2 := by
      unfold ratOfParts
      rw [show natOfDigits ['2'] = 2 from by decide,
          show natOfDigits ['5'] = 5 from by decide]
      norm_num
    rw [hval, show ratMax (5 / 2 : ℚ) 0 = 5 / 2 from by
      rw [ratMax_eq_max]; exact max_eq_left (by norm_num)]

/-- Claim C8, confirmed: a line with no parseable `time=` token, and any
line arriving while no duration is cached for the job, produce no update
at all — the state is returned unchanged — and `updateProgress` is a
total function, so no error can be raised. -/
theorem unmatched_line_or_unknown_duration_no_update (s : AppState)
    (jobId line : String) :
    (findTimeMatch line.data = none → updateProgress s jobId line = s) ∧
    (lookupKey s.videoDurations jobId = none →
      updateProgress s jobId line = s) :=
  ⟨updateProgress_no_time s jobId line,
   updateProgress_no_duration s jobId line⟩

/-- Witness for C8: a tokenless line leaves a concrete state unchanged,
and so does a timed line when the job has no cached duration. -/
theorem unmatched_line_no_update_witness :
    findTimeMatch ("no progress tokens here").data = none ∧
    updateProgress runningJobState "r1" "no progress tokens here" =
      runningJobState ∧
    lookupKey runningJobState.videoDurations "r1" = none ∧
    updateProgress runningJobState "r1" "time=00:00:05.00" =
      runningJobState :=
  ⟨by decide,
   (unmatched_line_or_unknown_duration_no_update runningJobState "r1"
      "no progress tokens here").1 (by decide),
   by decide,
   (unmatched_line_or_unknown_duration_no_update runningJobState "r1"
      "time=00:00:05.00").2 (by decide)⟩

/-- Claim C9 counterexample: with duration 60, a line reporting 30
elapsed seconds stores progress 50, and a subsequent line reporting 10
elapsed seconds overwrites it with 50/3 < 50 — the stored progress of a
running job regresses under this two-line sequence. -/
theorem progress_regression_possible :
    statusOf regressState1 "w1" = some JobStatus.optimizing ∧
    progressOf regressState1 "w1" = some 50 ∧
    progressOf regressState2 "w1" = some (50 / 3) ∧
    (50 / 3 : ℚ) < 50 := by
  obtain ⟨j1, hf1, hp1, hs1, -⟩ :=
    updateProgress_found combineReadyState "w1" sampleLine 0 0 30 60
      combineReadyJob (by decide) (by decide) (by norm_num) (by decide)
  have hd2 : lookupKey regressState1.videoDurations "w1" = some 60 := by
    show lookupKey (updateProgress combineReadyState "w1"
      sampleLine).videoDurations "w1" = some 60
    rw [updateProgress_videoDurations]
    decide
  obtain ⟨j2, hf2, hp2, -, -⟩ :=
    updateProgress_found regressState1 "w1"
      "frame=101 time=00:00:10.00 speed=2.5x" 0 0 10 60 j1 (by decide) hd2
      (by norm_num) hf1
  have hc1 : clampProgress (0 * 3600 + 0 * 60 + 30) 60 = 50 := by
    unfold clampProgress
    rw [ratMin_eq_min, ratMax_eq_max]
    norm_num [min_def, max_def]
  have hc2 : clampProgress (0 * 3600 + 0 * 60 + 10) 60 = 50 / 3 := by
    unfold clampProgress
    rw [ratMin_eq_min, ratMax_eq_max]
    norm_num [min_def, max_def]
  refine ⟨?_, ?_, ?_, by norm_num⟩
  · unfold statusOf
    rw [show getJobStatus regressState1 "w1" = some j1 from hf1]
    show some j1.status = some JobStatus.optimizing
    rw [hs1]
    rfl
  · unfold progressOf
    rw [show getJobStatus regressState1 "w1" = some j1 from hf1]
    show some j1.progress = some 50
    rw [hp1, hc1]
  · unfold progressOf
    rw [show getJobStatus regressState2 "w1" = some j2 from hf2]
    show some j2.progress = some (50 / 3)
    rw [hp2, hc2]

/-- Claim C9 amended: `updateProgress` overwrites the stored progress
with each parsed line's value without consulting the previous value, so
progress is non-decreasing across successive updates exactly when the
parsed elapsed times are non-decreasing (the well-behaved combiner
case); nothing in the code prevents a regressing time stamp from
regressing the stored progress. -/
theorem progress_monotone_of_nondecreasing_times (s : AppState)
    (jobId l1 l2 : String) (a1 b1 c1 a2 b2 c2 : Nat) (d : ℚ) (j : Job)
    (ht1 : findTimeMatch l1.data = some (a1, b1, c1))
    (ht2 : findTimeMatch l2.data = some (a2, b2, c2))
    (hd : lookupKey s.videoDurations jobId = some d)
    (hdpos : 0 < d)
    (hj : getJobStatus s jobId = some j)
    (hmono : a1 * 3600 + b1 * 60 + c1 ≤ a2 * 3600 + b2 * 60 + c2) :
    ∃ p1 p2 : ℚ,
      progressOf (updateProgress s jobId l1) jobId = some p1 ∧
      progressOf (updateProgress (updateProgress s jobId l1) jobId l2)
        jobId = some p2 ∧
      p1 ≤ p2 := by
  obtain ⟨j1, hf1, hp1, -, -⟩ :=
    updateProgress_found s jobId l1 a1 b1 c1 d j ht1 hd
      (ne_of_gt hdpos) hj
  have hd2 : lookupKey (updateProgress s jobId l1).videoDurations jobId =
      some d := by rw [updateProgress_videoDurations]; exact hd
  obtain ⟨j2, hf2, hp2, -, -⟩ :=
    updateProgress_found (updateProgress s jobId l1) jobId l2 a2 b2 c2 d
      j1 ht2 hd2 (ne_of_gt hdpos) hf1
  refine ⟨j1.progress, j2.progress, ?_, ?_, ?_⟩
  · unfold progressOf; rw [hf1]; rfl
  · unfold progressOf; rw [hf2]; rfl
  · rw [hp1, hp2]
    unfold clampProgress
    simp only [ratMin_eq_min, ratMax_eq_max]
    have hdiv : ((a1 * 3600 + b1 * 60 + c1 : Nat) : ℚ) / d * 100 ≤
        ((a2 * 3600 + b2 * 60 + c2 : Nat) : ℚ) / d * 100 := by
      apply mul_le_mul_of_nonneg_right _ (by norm_num : (0:ℚ) ≤ 100)
      exact (div_le_div_iff_of_pos_right hdpos).mpr (Nat.cast_le.mpr hmono)
    exact max_le_max (min_le_min hdiv (le_refl _)) (le_refl 0)

/-- Witness for the amended C9 theorem: 10 then 30 elapsed seconds on a
60-second job yields non-decreasing progress. -/
theorem progress_monotone_witness :
    (0:ℚ) < 60 ∧
    (∃ p1 p2 : ℚ,
      progressOf (updateProgress combineReadyState "w1"
        "time=00:00:10.00") "w1" = some p1 ∧
      progressOf (updateProgress (updateProgress combineReadyState "w1"
        "time=00:00:10.00") "w1" "time=00:00:30.00") "w1" = some p2 ∧
      p1 ≤ p2) :=
  ⟨by norm_num,
   progress_monotone_of_nondecreasing_times combineReadyState "w1"
     "time=00:00:10.00" "time=00:00:30.00" 0 0 10 0 0 30 60
     combineReadyJob (by decide) (by decide) (by decide) (by norm_num)
     (by decide) (by norm_num)⟩

/-- Claim C10, confirmed: if an `updateProgress` call changes the stored
speed of a job, then the line carried a parseable `time=` token, the job
had a truthy (non-zero) cached duration, and the line carried a
`speed=` token; contrapositively, a line with only a `speed=` token, or
one arriving with the duration unknown, never updates speed. -/
theorem speed_update_needs_time_and_duration (s : AppState)
    (jobId line : String)
    (hch : ¬ speedOf (updateProgress s jobId line) jobId =
      speedOf s jobId) :
    (∃ t, findTimeMatch line.data = some t) ∧
    (∃ d, lookupKey s.videoDurations jobId = some d ∧ ¬ d = 0) ∧
    (∃ sp, findSpeedMatch line.data = some sp) := by
  cases ht : findTimeMatch line.data with
  | none =>
      exact absurd
        (by rw [updateProgress_no_time s jobId line ht]) hch
  | some t =>
      cases hd : lookupKey s.videoDurations jobId with
      | none =>
          exact absurd
            (by rw [updateProgress_no_duration s jobId line hd]) hch
      | some d =>
          by_cases h0 : d = 0
          · exact absurd
              (by rw [updateProgress_zero_duration s jobId line
                (h0 ▸ hd)]) hch
          · cases hsp : findSpeedMatch line.data with
            | none =>
                exact absurd
                  (updateProgress_speed_unchanged_of_no_speed s jobId
                    line hsp) hch
            | some sp => exact ⟨⟨t, rfl⟩, ⟨d, rfl, h0⟩, ⟨sp, rfl⟩⟩

/-- Witness for C10: the sample line changes w1's speed, and the three
required tokens are all present. -/
theorem speed_update_needs_time_and_duration_witness :
    ¬ speedOf (updateProgress combineReadyState "w1" sampleLine) "w1" =
        speedOf combineReadyState "w1" ∧
    ((∃ t, findTimeMatch sampleLine.data = some t) ∧
     (∃ d, lookupKey combineReadyState.videoDurations "w1" = some d ∧
        ¬ d = 0) ∧
     (∃ sp, findSpeedMatch sampleLine.data = some sp)) := by
  have hch : ¬ speedOf (updateProgress combineReadyState "w1" sampleLine)
      "w1" = speedOf combineReadyState "w1" := by
    rw [show speedOf (updateProgress combineReadyState "w1" sampleLine)
        "w1" = some (some (ratMax (ratOfParts ['2'] ['5']) 0)) from rfl,
      show speedOf combineReadyState "w1" = some none from rfl]
    simp
  exact ⟨hch, speed_update_needs_time_and_duration combineReadyState "w1"
    sampleLine hch⟩
